import Mathlib

set_option maxHeartbeats 1000000

/-
Verification of the panthyr_ftp FTP client (src/panthyr_ftp/p_ftp.py).

The Python class pFTP wraps one ftplib connection.  The embedding below
models the remote server as a set of directory and file paths together
with the session's current working directory, and each client operation
as a pure function that returns its result together with the list of FTP
commands it issued (LIST, MKD, CWD, STOR, TYPE I, SIZE).  Python string
operations used by the source (str.split(), ' '.join, str.lower,
os.path.basename, re.sub('[^0-9a-zA-Z_]+', '_', s)) are translated to
functions on character lists.  Python exceptions become an error type.
-/

deriving instance DecidableEq for Except

/-- Whitespace tokenizer implementing Python `line.split()` (no separator
argument): maximal runs of whitespace separate tokens and no empty token
is produced.  The first argument accumulates the current token in
reverse order. -/
def tokensAux : List Char → List Char → List (List Char)
  | cur, [] => if cur = [] then [] else [cur.reverse]
  | cur, c :: rest =>
    if c.isWhitespace then
      if cur = [] then tokensAux [] rest else cur.reverse :: tokensAux [] rest
    else tokensAux (c :: cur) rest

/-- Python `line.split()`. -/
def splitTokens (line : String) : List String :=
  (tokensAux [] line.data).map String.mk

/-- Python `' '.join(xs)`. -/
def joinSpace : List String → String
  | [] => ""
  | [x] => x
  | x :: y :: ys => x ++ " " ++ joinSpace (y :: ys)

/-- p_ftp.py lines 178/180: `' '.join(line.split()[8:])`, the name of one
listing entry. -/
def entryName (line : String) : String :=
  joinSpace ((splitTokens line).drop 8)

/-- p_ftp.py lines 175-182 (`pFTP.get_contents`): partition raw LIST
lines into (directories, files) by testing `line[0] == 'd'`.  Indexing
`line[0]` raises IndexError on an empty line, modelled by `none`. -/
def get_contents : List String → Option (List String × List String)
  | [] => some ([], [])
  | line :: rest =>
    match line.data with
    | [] => none
    | c :: _ =>
      match get_contents rest with
      | none => none
      | some (dirs, files) =>
        if c = 'd' then some (entryName line :: dirs, files)
        else some (dirs, entryName line :: files)

/-- The character class `[0-9a-zA-Z_]` of the regex in p_ftp.py line 104. -/
def isWordChar (c : Char) : Bool :=
  ('0' ≤ c && c ≤ '9') || ('a' ≤ c && c ≤ 'z') || ('A' ≤ c && c ≤ 'Z') || c == '_'

/-- `re.sub('[^0-9a-zA-Z_]+', '_', s)` (p_ftp.py line 104): each maximal
run of characters outside the class is replaced by one underscore.  The
Boolean flag records whether the previous character was part of such a
run (in which case the current offending character extends the run and
emits nothing). -/
def sanitizeAux : Bool → List Char → List Char
  | _, [] => []
  | inRun, c :: rest =>
    if isWordChar c then c :: sanitizeAux false rest
    else if inRun then sanitizeAux true rest
    else '_' :: sanitizeAux true rest

/-- The sanitization performed by `pFTP.cwd` on its argument. -/
def sanitize (s : String) : String := String.mk (sanitizeAux false s.data)

/-- The character-by-character variant in which every single offending
character is replaced by one underscore (so a run of k offending
characters yields k underscores).  Used to compare against the
run-collapsing behaviour of the `+`-quantified regex in the source. -/
def sanitizeCharwise (s : String) : String :=
  String.mk (s.data.map (fun c => if isWordChar c then c else '_'))

/-- `os.path.basename` on a POSIX path: everything after the last '/'. -/
def basenameAux : List Char → List Char → List Char
  | acc, [] => acc.reverse
  | acc, c :: rest => if c = '/' then basenameAux [] rest else basenameAux (c :: acc) rest

/-- `os.path.basename(file)` (p_ftp.py line 214). -/
def basename (p : String) : String := String.mk (basenameAux [] p.data)

/-- Python `str.lower()` (ASCII-faithful). -/
def lowerStr (s : String) : String := String.mk (s.data.map Char.toLower)

/-- p_ftp.py lines 213-214: `if not target_filename: target_filename =
os.path.basename(file)`.  Python treats both `None` and the empty string
as falsy. -/
def resolveTarget (file : String) (target_filename : Option String) : String :=
  match target_filename with
  | none => basename file
  | some t => if t = "" then basename file else t

/-- FTP commands a client operation may issue over the transport. -/
inductive Cmd where
  | list (dir : String)
  | mkd (name : String)
  | cwdTo (name : String)
  | stor (name : String)
  | typeI
  | sizeOf (name : String)
  deriving DecidableEq

/-- Errors raised by the ftplib transport layer or by Python itself. -/
inductive LErr where
  | errorPerm   -- ftplib.error_perm
  | indexError  -- Python IndexError (line[0] on an empty string)
  deriving DecidableEq

/-- Exceptions visible to callers of pFTP methods. -/
inductive PyExc where
  | valueError                       -- ValueError: local file missing (line 210)
  | ftpFileExistsOnServer            -- FTPFileExistsOnServer (line 216)
  | ftpUploadFailed (resp : String)  -- FTPUploadFailed(ret_ftp) (line 225)
  | ftpError                         -- FTPError wrapping ftplib.error_perm (line 118)
  | ftpCannotLoginError              -- FTPCannotLoginError (line 94)
  | indexError                       -- uncaught Python IndexError
  deriving DecidableEq

/-- The remote server as seen through one session: the session's current
working directory and the sets (lists) of existing directory and file
paths, each path given as its list of name segments from the root. -/
structure Server where
  cwd : List String
  dirs : List (List String)
  files : List (List String)
  deriving DecidableEq

/-- `childName p q = some n` exactly when path `q` is the child of path
`p` named `n`. -/
def childName (p q : List String) : Option String :=
  match q.reverse with
  | [] => none
  | n :: r => if r.reverse = p then some n else none

/-- Names of the entries of `l` that are direct children of path `p`. -/
def dirNamesIn (l : List (List String)) (p : List String) : List String :=
  l.filterMap (childName p)

/-- Names of the subdirectories of the current working directory. -/
def dirNamesAt (s : Server) : List String := dirNamesIn s.dirs s.cwd

/-- Names of the files in the current working directory. -/
def fileNamesAt (s : Server) : List String := dirNamesIn s.files s.cwd

/-- All entry names directly under path `p` on server `s`. -/
def namesAt (s : Server) (p : List String) : List String :=
  dirNamesIn s.dirs p ++ dirNamesIn s.files p

/-- One raw LIST line for a subdirectory, in the conventional long-listing
format the parser expects (8 metadata tokens, then the name). -/
def dirLine (name : String) : String :=
  "drwxr-xr-x 2 u g 4096 Jan 1 00:00" ++ " " ++ name

/-- One raw LIST line for a file. -/
def fileLine (name : String) : String :=
  "-rw-r--r-- 1 u g 10 Jan 1 00:00" ++ " " ++ name

/-- The server's response to `LIST .`: one line per subdirectory, then one
line per file of the current working directory. -/
def listLines (s : Server) : List String :=
  (dirNamesAt s).map dirLine ++ (fileNamesAt s).map fileLine

/-- The transport's CWD: succeeds exactly when the named subdirectory of
the current working directory exists. -/
def ftpCwd (s : Server) (name : String) : Except LErr Server :=
  if s.cwd ++ [name] ∈ s.dirs then Except.ok { s with cwd := s.cwd ++ [name] }
  else Except.error LErr.errorPerm

/-- The transport's MKD: fails when an entry of that name already exists,
otherwise creates the directory. -/
def ftpMkd (s : Server) (name : String) : Except LErr Server :=
  if s.cwd ++ [name] ∈ s.dirs ∨ s.cwd ++ [name] ∈ s.files then Except.error LErr.errorPerm
  else Except.ok { s with dirs := (s.cwd ++ [name]) :: s.dirs }

/-- p_ftp.py lines 120-130 (`pFTP._prep_dir`): list the current directory,
append '.' to the directory-name list, and MKD the target name when it is
not in that list. -/
def prep_dir (s : Server) (dir : String) : Except LErr Server × List Cmd :=
  match get_contents (listLines s) with
  | none => (Except.error LErr.indexError, [Cmd.list "."])
  | some (dir_lst, _) =>
    if dir ∈ dir_lst ++ ["."] then (Except.ok s, [Cmd.list "."])
    else
      match ftpMkd s dir with
      | Except.ok s' => (Except.ok s', [Cmd.list ".", Cmd.mkd dir])
      | Except.error e => (Except.error e, [Cmd.list ".", Cmd.mkd dir])

/-- `except ftplib.error_perm: raise FTPError` (p_ftp.py lines 116-118):
error_perm is wrapped into FTPError; any other exception propagates. -/
def wrapPerm : LErr → PyExc
  | LErr.errorPerm => PyExc.ftpError
  | LErr.indexError => PyExc.indexError

/-- Result of `pFTP.cwd`: outcome, issued commands, and whether the
sanitization warning (p_ftp.py lines 105-108) was logged. -/
structure CwdResult where
  out : Except PyExc Server
  cmds : List Cmd
  warned : Bool

/-- p_ftp.py lines 96-118 (`pFTP.cwd`): sanitize the target name, warn if
it changed, prepare and enter the sanitized directory, then prepare and
enter the current-year directory.  `year_str` stands for
`current_year_str()`, the four-digit year. -/
def cwd (s : Server) (target_dir : String) (year_str : String) : CwdResult :=
  match prep_dir s (sanitize target_dir) with
  | (Except.error e, tr) =>
    ⟨Except.error (wrapPerm e), tr, decide (sanitize target_dir ≠ target_dir)⟩
  | (Except.ok s₁, tr₁) =>
    match ftpCwd s₁ (sanitize target_dir) with
    | Except.error e =>
      ⟨Except.error (wrapPerm e), tr₁ ++ [Cmd.cwdTo (sanitize target_dir)],
        decide (sanitize target_dir ≠ target_dir)⟩
    | Except.ok s₂ =>
      match prep_dir s₂ year_str with
      | (Except.error e, tr₂) =>
        ⟨Except.error (wrapPerm e),
          tr₁ ++ [Cmd.cwdTo (sanitize target_dir)] ++ tr₂,
          decide (sanitize target_dir ≠ target_dir)⟩
      | (Except.ok s₃, tr₂) =>
        match ftpCwd s₃ year_str with
        | Except.error e =>
          ⟨Except.error (wrapPerm e),
            tr₁ ++ [Cmd.cwdTo (sanitize target_dir)] ++ tr₂ ++ [Cmd.cwdTo year_str],
            decide (sanitize target_dir ≠ target_dir)⟩
        | Except.ok s₄ =>
          ⟨Except.ok s₄,
            tr₁ ++ [Cmd.cwdTo (sanitize target_dir)] ++ tr₂ ++ [Cmd.cwdTo year_str],
            decide (sanitize target_dir ≠ target_dir)⟩

/-- p_ftp.py lines 229-239 (`pFTP._file_exists`): fresh listing of the
current directory, then case-insensitive membership of `file` among the
file names (lowercasing only, no other normalization). -/
def file_exists (s : Server) (file : String) : Option Bool :=
  match get_contents (listLines s) with
  | none => none
  | some (_, files) => some (files.any (fun g => lowerStr file == lowerStr g))

/-- p_ftp.py lines 219-225: issue STOR (`storApply` is the server's state
transition for the transfer, `storResp` the raw completion response
string), then re-list and fail with FTPUploadFailed carrying the raw
response when the target name is absent. -/
def storStep (storApply : Server → String → Server) (storResp : Server → String → String)
    (s : Server) (target : String) : Except PyExc Server × List Cmd :=
  match file_exists (storApply s target) target with
  | none => (Except.error PyExc.indexError, [Cmd.stor target, Cmd.list "."])
  | some false =>
    (Except.error (PyExc.ftpUploadFailed (storResp s target)), [Cmd.stor target, Cmd.list "."])
  | some true => (Except.ok (storApply s target), [Cmd.stor target, Cmd.list "."])

/-- p_ftp.py lines 184-227 (`pFTP.upload_file`): local existence check
(`isfile` models `os.path.isfile`) before any network activity, remote
filename resolution, optional case-insensitive pre-existence check when
`overwrite` is false, then STOR with post-upload verification. -/
def upload_file (isfile : String → Bool)
    (storApply : Server → String → Server) (storResp : Server → String → String)
    (s : Server) (file : String) (overwrite : Bool) (target_filename : Option String) :
    Except PyExc Server × List Cmd :=
  if isfile file = false then (Except.error PyExc.valueError, [])
  else
    if overwrite = false then
      match file_exists s (resolveTarget file target_filename) with
      | none => (Except.error PyExc.indexError, [Cmd.list "."])
      | some true => (Except.error PyExc.ftpFileExistsOnServer, [Cmd.list "."])
      | some false =>
        ((storStep storApply storResp s (resolveTarget file target_filename)).1,
          Cmd.list "." :: (storStep storApply storResp s (resolveTarget file target_filename)).2)
    else storStep storApply storResp s (resolveTarget file target_filename)

/-- p_ftp.py lines 241-252 (`pFTP.get_size`): force binary mode with
`TYPE I`, then issue SIZE.  `sizeResp` models `ftplib.FTP.size`, which
per the source's annotation (line 248/252) yields an integer byte count
or None when the server does not report a size. -/
def get_size (sizeResp : String → Option Nat) (file : String) :
    Except PyExc (Option Nat) × List Cmd :=
  (Except.ok (sizeResp file), [Cmd.typeI, Cmd.sizeOf file])

/-- p_ftp.py lines 75-82 together with Python's with-statement semantics
(PEP 343): `__enter__` runs `login`; when it raises, the body is never
entered and `__exit__` is not called; otherwise `__exit__` (which calls
`quit`, lines 254-262) runs exactly once, whether the body returned or
raised.  The second component counts the invocations of `quit`. -/
def withSession {α : Type} (loginOk : Bool) (body : Except PyExc α) : Except PyExc α × Nat :=
  if loginOk then
    match body with
    | Except.ok a => (Except.ok a, 1)
    | Except.error e => (Except.error e, 1)
  else (Except.error PyExc.ftpCannotLoginError, 0)

/-- A name that round-trips through the listing format: nonempty and free
of whitespace. -/
abbrev isSimpleToken (n : String) : Prop :=
  n ≠ "" ∧ ∀ c ∈ n.data, c.isWhitespace = false

lemma mk_data (s : String) : String.mk s.data = s := rfl

lemma eq_empty_iff_data_nil (n : String) : n = "" ↔ n.data = [] := by
  obtain ⟨d⟩ := n
  constructor
  · intro h
    rw [h]
  · intro h
    simp only at h
    subst h
    decide

lemma tokensAux_all_nonws (m : List Char) (hm : ∀ c ∈ m, c.isWhitespace = false) :
    ∀ cur, tokensAux cur m = if cur.reverse ++ m = [] then [] else [cur.reverse ++ m] := by
  induction m with
  | nil =>
    intro cur
    by_cases h : cur = [] <;>
      simp [tokensAux, h, List.reverse_eq_nil_iff]
  | cons c m ih =>
    intro cur
    have hc : c.isWhitespace = false := hm c (List.mem_cons_self c m)
    have hm' : ∀ x ∈ m, x.isWhitespace = false := fun x hx => hm x (List.mem_cons_of_mem c hx)
    simp only [tokensAux, hc, Bool.false_eq_true, if_false, ih hm']
    simp [List.append_assoc]

lemma tokensAux_append_ws (l₁ : List Char) (c : Char) (hc : c.isWhitespace = true)
    (l₂ : List Char) :
    ∀ cur, tokensAux cur (l₁ ++ c :: l₂) = tokensAux cur (l₁ ++ [c]) ++ tokensAux [] l₂ := by
  induction l₁ with
  | nil =>
    intro cur
    by_cases h : cur = [] <;> simp [tokensAux, hc, h]
  | cons d l₁ ih =>
    intro cur
    by_cases hd : d.isWhitespace <;> by_cases hcur : cur = [] <;>
      simp [tokensAux, hd, hcur, ih]

lemma map_mk_map_data (l : List String) : (l.map String.data).map String.mk = l := by
  induction l with
  | nil => rfl
  | cons a l ih => simp only [List.map_cons, ih, mk_data]

lemma splitTokens_line (pre : String) (n : String) (hn : n ≠ "")
    (hnw : ∀ c ∈ n.data, c.isWhitespace = false) :
    splitTokens (pre ++ " " ++ n)
      = (tokensAux [] (pre.data ++ [' '])).map String.mk ++ [n] := by
  have hdata : (pre ++ " " ++ n).data = pre.data ++ ' ' :: n.data := by
    rw [String.data_append, String.data_append]
    simp [List.append_assoc]
  have hnn : n.data ≠ [] := fun h => hn ((eq_empty_iff_data_nil n).mpr h)
  unfold splitTokens
  rw [hdata, tokensAux_append_ws pre.data ' ' (by decide) n.data [],
    tokensAux_all_nonws n.data hnw []]
  simp [hnn, mk_data]

lemma splitTokens_dirLine (n : String) (hn : n ≠ "")
    (hnw : ∀ c ∈ n.data, c.isWhitespace = false) :
    splitTokens (dirLine n)
      = ["drwxr-xr-x", "2", "u", "g", "4096", "Jan", "1", "00:00", n] := by
  unfold dirLine
  rw [splitTokens_line _ n hn hnw]
  have h8 : (tokensAux [] ("drwxr-xr-x 2 u g 4096 Jan 1 00:00".data ++ [' '])).map String.mk
      = ["drwxr-xr-x", "2", "u", "g", "4096", "Jan", "1", "00:00"] := by decide
  rw [h8]
  rfl

lemma splitTokens_fileLine (n : String) (hn : n ≠ "")
    (hnw : ∀ c ∈ n.data, c.isWhitespace = false) :
    splitTokens (fileLine n)
      = ["-rw-r--r--", "1", "u", "g", "10", "Jan", "1", "00:00", n] := by
  unfold fileLine
  rw [splitTokens_line _ n hn hnw]
  have h8 : (tokensAux [] ("-rw-r--r-- 1 u g 10 Jan 1 00:00".data ++ [' '])).map String.mk
      = ["-rw-r--r--", "1", "u", "g", "10", "Jan", "1", "00:00"] := by decide
  rw [h8]
  rfl

lemma entryName_dirLine (n : String) (hn : isSimpleToken n) : entryName (dirLine n) = n := by
  unfold entryName
  rw [splitTokens_dirLine n hn.1 hn.2]
  rfl

lemma entryName_fileLine (n : String) (hn : isSimpleToken n) : entryName (fileLine n) = n := by
  unfold entryName
  rw [splitTokens_fileLine n hn.1 hn.2]
  rfl

lemma dirLine_data (n : String) :
    (dirLine n).data = 'd' :: ("rwxr-xr-x 2 u g 4096 Jan 1 00:00".data ++ ' ' :: n.data) := by
  unfold dirLine
  rw [String.data_append, String.data_append]
  rw [show "drwxr-xr-x 2 u g 4096 Jan 1 00:00".data
      = 'd' :: "rwxr-xr-x 2 u g 4096 Jan 1 00:00".data from by decide]
  simp [List.append_assoc]

lemma fileLine_data (n : String) :
    (fileLine n).data = '-' :: ("rw-r--r-- 1 u g 10 Jan 1 00:00".data ++ ' ' :: n.data) := by
  unfold fileLine
  rw [String.data_append, String.data_append]
  rw [show "-rw-r--r-- 1 u g 10 Jan 1 00:00".data
      = '-' :: "rw-r--r-- 1 u g 10 Jan 1 00:00".data from by decide]
  simp [List.append_assoc]

lemma get_contents_cons (line : String) (c : Char) (r : List Char)
    (hl : line.data = c :: r) (rest : List String) :
    get_contents (line :: rest)
      = match get_contents rest with
        | none => none
        | some (dirs, files) =>
          if c = 'd' then some (entryName line :: dirs, files)
          else some (dirs, entryName line :: files) := by
  conv_lhs => rw [get_contents]
  rw [hl]

lemma get_contents_map (fn : List String) (hf : ∀ n ∈ fn, isSimpleToken n) :
    ∀ dn, (∀ n ∈ dn, isSimpleToken n) →
      get_contents (dn.map dirLine ++ fn.map fileLine) = some (dn, fn) := by
  have base : get_contents (fn.map fileLine) = some ([], fn) := by
    induction fn with
    | nil => rfl
    | cons f fs ihf =>
      have h1 : isSimpleToken f := hf f (List.mem_cons_self f fs)
      have hfs : ∀ n ∈ fs, isSimpleToken n := fun n hn => hf n (List.mem_cons_of_mem f hn)
      rw [List.map_cons, get_contents_cons (fileLine f) '-' _ (fileLine_data f),
        ihf hfs]
      simp [entryName_fileLine f h1]
  intro dn
  induction dn with
  | nil =>
    intro _
    simpa using base
  | cons d ds ihd =>
    intro hd
    have h1 : isSimpleToken d := hd d (List.mem_cons_self d ds)
    have hds : ∀ n ∈ ds, isSimpleToken n := fun n hn => hd n (List.mem_cons_of_mem d hn)
    rw [List.map_cons, List.cons_append,
      get_contents_cons (dirLine d) 'd' _ (dirLine_data d), ihd hds]
    simp [entryName_dirLine d h1]

lemma get_contents_listLines (s : Server)
    (h : ∀ n ∈ namesAt s s.cwd, isSimpleToken n) :
    get_contents (listLines s) = some (dirNamesAt s, fileNamesAt s) := by
  have hd : ∀ n ∈ dirNamesAt s, isSimpleToken n := fun n hn =>
    h n (List.mem_append_left _ hn)
  have hf : ∀ n ∈ fileNamesAt s, isSimpleToken n := fun n hn =>
    h n (List.mem_append_right _ hn)
  exact get_contents_map (fileNamesAt s) hf (dirNamesAt s) hd

lemma childName_eq_some (p q : List String) (n : String) :
    childName p q = some n ↔ q = p ++ [n] := by
  unfold childName
  rcases hq : q.reverse with _ | ⟨m, r⟩
  · have : q = [] := by
      rw [← List.reverse_reverse q, hq, List.reverse_nil]
    subst this
    constructor
    · intro h
      cases h
    · intro h
      have hne : p ++ [n] ≠ [] := by simp
      exact absurd h.symm hne
  · have hq' : q = r.reverse ++ [m] := by
      rw [← List.reverse_reverse q, hq, List.reverse_cons]
    by_cases hr : r.reverse = p
    · subst hr
      simp [hq']
    · simp only [hr, if_false]
      constructor
      · intro h
        cases h
      · intro h
        exfalso
        rw [hq'] at h
        exact hr (List.append_inj' h rfl).1

lemma mem_dirNamesIn (l : List (List String)) (p : List String) (n : String) :
    n ∈ dirNamesIn l p ↔ p ++ [n] ∈ l := by
  unfold dirNamesIn
  rw [List.mem_filterMap]
  constructor
  · rintro ⟨q, hq, hcq⟩
    rw [childName_eq_some] at hcq
    rwa [← hcq]
  · intro h
    exact ⟨p ++ [n], h, (childName_eq_some p _ n).mpr rfl⟩

lemma sanitizeAux_chars (l : List Char) :
    ∀ b, ∀ c ∈ sanitizeAux b l, isWordChar c = true := by
  induction l with
  | nil =>
    intro b c hc
    simp [sanitizeAux] at hc
  | cons d l ih =>
    intro b c hc
    by_cases hd : isWordChar d
    · rw [sanitizeAux, if_pos hd] at hc
      rcases List.mem_cons.mp hc with h | h
      · rwa [h]
      · exact ih false c h
    · rw [sanitizeAux, if_neg hd] at hc
      cases b with
      | true =>
        rw [if_pos rfl] at hc
        exact ih true c hc
      | false =>
        simp only [Bool.false_eq_true, if_false] at hc
        rcases List.mem_cons.mp hc with h | h
        · rw [h]
          decide
        · exact ih true c h

lemma sanitize_chars (s : String) : ∀ c ∈ (sanitize s).data, isWordChar c = true :=
  fun c hc => sanitizeAux_chars s.data false c hc

lemma sanitize_ne_dot (s : String) : sanitize s ≠ "." := by
  intro h
  have : '.' ∈ (sanitize s).data := by
    rw [h]
    decide
  have := sanitize_chars s '.' this
  simp [isWordChar] at this

lemma sanitizeAux_id (l : List Char) (h : ∀ c ∈ l, isWordChar c = true) :
    sanitizeAux false l = l := by
  induction l with
  | nil => rfl
  | cons c l ih =>
    have hc : isWordChar c = true := h c (List.mem_cons_self c l)
    rw [sanitizeAux, if_pos hc, ih (fun x hx => h x (List.mem_cons_of_mem c hx))]

lemma sanitize_of_wordChars (s : String) (h : ∀ c ∈ s.data, isWordChar c = true) :
    sanitize s = s := by
  unfold sanitize
  rw [sanitizeAux_id s.data h]

lemma ftpCwd_ok (s : Server) (d : String) (h : s.cwd ++ [d] ∈ s.dirs) :
    ftpCwd s d = Except.ok { s with cwd := s.cwd ++ [d] } := by
  unfold ftpCwd
  rw [if_pos h]

lemma prep_dir_ok (s : Server) (d : String)
    (hNames : ∀ n ∈ namesAt s s.cwd, isSimpleToken n)
    (hFile : s.cwd ++ [d] ∉ s.files)
    (hDot : d ≠ ".") :
    ∃ s₁ tr, prep_dir s d = (Except.ok s₁, tr) ∧
      s₁.cwd = s.cwd ∧ s₁.files = s.files ∧
      (∀ q, q ∈ s₁.dirs ↔ q ∈ s.dirs ∨ q = s.cwd ++ [d]) ∧
      (s.cwd ++ [d] ∈ s.dirs → tr = [Cmd.list "."]) ∧
      (s.cwd ++ [d] ∉ s.dirs → tr = [Cmd.list ".", Cmd.mkd d]) := by
  have hL := get_contents_listLines s hNames
  by_cases hmem : s.cwd ++ [d] ∈ s.dirs
  · have hd' : d ∈ dirNamesAt s ++ ["."] :=
      List.mem_append_left _ ((mem_dirNamesIn s.dirs s.cwd d).mpr hmem)
    refine ⟨s, [Cmd.list "."], ?_, rfl, rfl, ?_, fun _ => rfl, fun h => absurd hmem h⟩
    · unfold prep_dir
      rw [hL]
      dsimp only
      rw [if_pos hd']
    · intro q
      constructor
      · exact Or.inl
      · rintro (h | rfl)
        · exact h
        · exact hmem
  · have hd' : d ∉ dirNamesAt s ++ ["."] := by
      intro h
      rcases List.mem_append.mp h with h | h
      · exact hmem ((mem_dirNamesIn s.dirs s.cwd d).mp h)
      · exact hDot (List.mem_singleton.mp h)
    have hmkd : ftpMkd s d = Except.ok { s with dirs := (s.cwd ++ [d]) :: s.dirs } := by
      unfold ftpMkd
      rw [if_neg]
      rintro (h | h)
      · exact hmem h
      · exact hFile h
    refine ⟨{ s with dirs := (s.cwd ++ [d]) :: s.dirs }, [Cmd.list ".", Cmd.mkd d],
      ?_, rfl, rfl, ?_, fun h => absurd h hmem, fun _ => rfl⟩
    · unfold prep_dir
      rw [hL]
      dsimp only
      rw [if_neg hd', hmkd]
    · intro q
      show q ∈ (s.cwd ++ [d]) :: s.dirs ↔ _
      rw [List.mem_cons]
      tauto

/-- Claim C1: for every target directory name and every current year,
`pFTP.cwd` leaves the session's working directory at
`<sanitized-name>/<four-digit-year>` relative to the working directory
active before the call, creating whichever of the two subdirectories was
not already present in the listing of the then-current directory.  The
hypotheses say that the listed entry names round-trip through the
long-listing format and that no *file* blocks either directory name. -/
theorem cwd_changes_to_base_year (s : Server) (target year : String)
    (hNames : ∀ n ∈ namesAt s s.cwd, isSimpleToken n)
    (hNames2 : ∀ n ∈ namesAt s (s.cwd ++ [sanitize target]), isSimpleToken n)
    (hNoFile1 : s.cwd ++ [sanitize target] ∉ s.files)
    (hNoFile2 : s.cwd ++ [sanitize target, year] ∉ s.files)
    (hYear : year.data.length = 4 ∧ ∀ c ∈ year.data, c.isDigit = true) :
    ∃ s' : Server,
      (cwd s target year).out = Except.ok s' ∧
      s'.cwd = s.cwd ++ [sanitize target, year] ∧
      s.cwd ++ [sanitize target] ∈ s'.dirs ∧
      s.cwd ++ [sanitize target, year] ∈ s'.dirs ∧
      s'.files = s.files ∧
      (s.cwd ++ [sanitize target] ∉ s.dirs →
        Cmd.mkd (sanitize target) ∈ (cwd s target year).cmds) ∧
      (s.cwd ++ [sanitize target, year] ∉ s.dirs →
        Cmd.mkd year ∈ (cwd s target year).cmds) := by
  obtain ⟨hlen, hdig⟩ := hYear
  have hDot2 : year ≠ "." := by
    intro h
    have h1 : '.' ∈ year.data := by
      rw [h]
      decide
    exact absurd (hdig '.' h1) (by decide)
  have hDot1 := sanitize_ne_dot target
  have hassoc : s.cwd ++ [sanitize target, year] = (s.cwd ++ [sanitize target]) ++ [year] := by
    simp
  obtain ⟨s₁, tr₁, hp₁, hc₁, hf₁, hd₁, _, htrB₁⟩ :=
    prep_dir_ok s (sanitize target) hNames hNoFile1 hDot1
  have hc₁' : s₁.cwd ++ [sanitize target] = s.cwd ++ [sanitize target] := by rw [hc₁]
  have hmem₁ : s₁.cwd ++ [sanitize target] ∈ s₁.dirs := by
    rw [hc₁]
    exact (hd₁ _).mpr (Or.inr rfl)
  have hcw₁ := ftpCwd_ok s₁ (sanitize target) hmem₁
  have hNames₂ : ∀ n ∈ namesAt { s₁ with cwd := s₁.cwd ++ [sanitize target] }
      ({ s₁ with cwd := s₁.cwd ++ [sanitize target] } : Server).cwd, isSimpleToken n := by
    intro n hn
    apply hNames2 n
    unfold namesAt at hn ⊢
    dsimp only at hn
    rw [hc₁'] at hn
    rcases List.mem_append.mp hn with h | h
    · rw [mem_dirNamesIn] at h
      rcases (hd₁ _).mp h with h' | h'
      · exact List.mem_append_left _ ((mem_dirNamesIn _ _ _).mpr h')
      · exfalso
        have := congrArg List.length h'
        simp at this
    · rw [hf₁] at h
      exact List.mem_append_right _ h
  have hNoFile₂ : ({ s₁ with cwd := s₁.cwd ++ [sanitize target] } : Server).cwd ++ [year]
      ∉ ({ s₁ with cwd := s₁.cwd ++ [sanitize target] } : Server).files := by
    show (s₁.cwd ++ [sanitize target]) ++ [year] ∉ s₁.files
    rw [hc₁', hf₁, ← hassoc]
    exact hNoFile2
  obtain ⟨s₃, tr₂, hp₂, hc₃, hf₃, hd₃, _, htrB₂⟩ :=
    prep_dir_ok { s₁ with cwd := s₁.cwd ++ [sanitize target] } year hNames₂ hNoFile₂ hDot2
  have hmem₃ : s₃.cwd ++ [year] ∈ s₃.dirs := by
    rw [hc₃]
    exact (hd₃ _).mpr (Or.inr rfl)
  have hcw₂ := ftpCwd_ok s₃ year hmem₃
  have hres : cwd s target year = ⟨Except.ok { s₃ with cwd := s₃.cwd ++ [year] },
      tr₁ ++ [Cmd.cwdTo (sanitize target)] ++ tr₂ ++ [Cmd.cwdTo year],
      decide (sanitize target ≠ target)⟩ := by
    unfold cwd
    rw [hp₁]
    dsimp only
    rw [hcw₁]
    dsimp only
    rw [hp₂]
    dsimp only
    rw [hcw₂]
  refine ⟨{ s₃ with cwd := s₃.cwd ++ [year] }, ?_, ?_, ?_, ?_, ?_, ?_, ?_⟩
  · rw [hres]
  · show s₃.cwd ++ [year] = s.cwd ++ [sanitize target, year]
    rw [hc₃]
    show (s₁.cwd ++ [sanitize target]) ++ [year] = s.cwd ++ [sanitize target, year]
    rw [hc₁', hassoc]
  · show s.cwd ++ [sanitize target] ∈ s₃.dirs
    refine (hd₃ _).mpr (Or.inl ?_)
    show s.cwd ++ [sanitize target] ∈ s₁.dirs
    rw [← hc₁']
    exact hmem₁
  · show s.cwd ++ [sanitize target, year] ∈ s₃.dirs
    refine (hd₃ _).mpr (Or.inr ?_)
    show s.cwd ++ [sanitize target, year] = (s₁.cwd ++ [sanitize target]) ++ [year]
    rw [hc₁', hassoc]
  · show s₃.files = s.files
    rw [hf₃]
    show s₁.files = s.files
    exact hf₁
  · intro hnd
    rw [hres]
    have htr := htrB₁ hnd
    dsimp only
    rw [htr]
    simp
  · intro hnd2
    have h2 : ({ s₁ with cwd := s₁.cwd ++ [sanitize target] } : Server).cwd ++ [year]
        ∉ ({ s₁ with cwd := s₁.cwd ++ [sanitize target] } : Server).dirs := by
      show (s₁.cwd ++ [sanitize target]) ++ [year] ∉ s₁.dirs
      rw [hc₁']
      intro h
      rcases (hd₁ _).mp h with h' | h'
      · rw [← hassoc] at h'
        exact hnd2 h'
      · have := congrArg List.length h'
        simp at this
    have htr := htrB₂ h2
    rw [hres]
    dsimp only
    rw [htr]
    simp

/-- Witness for claim C1, at a fresh server rooted at `[]`, target
`"logs"` and year `"2024"`. -/
theorem cwd_changes_to_base_year_witness : ∃ s' : Server,
    (cwd ⟨[], [[]], []⟩ "logs" "2024").out = Except.ok s' ∧
    s'.cwd = (⟨[], [[]], []⟩ : Server).cwd ++ [sanitize "logs", "2024"] ∧
    (⟨[], [[]], []⟩ : Server).cwd ++ [sanitize "logs"] ∈ s'.dirs ∧
    (⟨[], [[]], []⟩ : Server).cwd ++ [sanitize "logs", "2024"] ∈ s'.dirs ∧
    s'.files = (⟨[], [[]], []⟩ : Server).files ∧
    ((⟨[], [[]], []⟩ : Server).cwd ++ [sanitize "logs"] ∉ (⟨[], [[]], []⟩ : Server).dirs →
      Cmd.mkd (sanitize "logs") ∈ (cwd ⟨[], [[]], []⟩ "logs" "2024").cmds) ∧
    ((⟨[], [[]], []⟩ : Server).cwd ++ [sanitize "logs", "2024"] ∉ (⟨[], [[]], []⟩ : Server).dirs →
      Cmd.mkd "2024" ∈ (cwd ⟨[], [[]], []⟩ "logs" "2024").cmds) :=
  cwd_changes_to_base_year ⟨[], [[]], []⟩ "logs" "2024" (by decide) (by decide) (by decide)
    (by decide) (by decide)

lemma prep_dir_cmds (s : Server) (d : String) :
    (prep_dir s d).2 = [Cmd.list "."] ∨ (prep_dir s d).2 = [Cmd.list ".", Cmd.mkd d] := by
  unfold prep_dir
  repeat' split
  all_goals first
  | exact Or.inl rfl
  | exact Or.inr rfl

lemma mem_trace_cases (c : Cmd) (tr : List Cmd) (d : String)
    (h : tr = [Cmd.list "."] ∨ tr = [Cmd.list ".", Cmd.mkd d]) (hc : c ∈ tr) :
    c = Cmd.list "." ∨ c = Cmd.mkd d := by
  rcases h with h | h <;> subst h <;> simp at hc <;> tauto

lemma cwd_cmds_bound (s : Server) (target year : String) :
    ∀ c ∈ (cwd s target year).cmds,
      c = Cmd.list "." ∨ c = Cmd.mkd (sanitize target) ∨ c = Cmd.mkd year ∨
      c = Cmd.cwdTo (sanitize target) ∨ c = Cmd.cwdTo year := by
  intro c hc
  unfold cwd at hc
  split at hc
  next e tr heq =>
    have h1 := prep_dir_cmds s (sanitize target)
    rw [heq] at h1
    replace h1 : tr = [Cmd.list "."] ∨ tr = [Cmd.list ".", Cmd.mkd (sanitize target)] := h1
    replace hc : c ∈ tr := hc
    have := mem_trace_cases c tr (sanitize target) h1 hc
    tauto
  next s₁ tr₁ heq =>
    have h1 := prep_dir_cmds s (sanitize target)
    rw [heq] at h1
    replace h1 : tr₁ = [Cmd.list "."] ∨ tr₁ = [Cmd.list ".", Cmd.mkd (sanitize target)] := h1
    split at hc
    next e heq2 =>
      replace hc : c ∈ tr₁ ++ [Cmd.cwdTo (sanitize target)] := hc
      rcases List.mem_append.mp hc with h | h
      · have := mem_trace_cases c tr₁ (sanitize target) h1 h
        tauto
      · simp at h
        tauto
    next s₂ heq2 =>
      split at hc
      next e tr₂ heq3 =>
        have h2 := prep_dir_cmds s₂ year
        rw [heq3] at h2
        replace h2 : tr₂ = [Cmd.list "."] ∨ tr₂ = [Cmd.list ".", Cmd.mkd year] := h2
        replace hc : c ∈ tr₁ ++ [Cmd.cwdTo (sanitize target)] ++ tr₂ := hc
        rcases List.mem_append.mp hc with h | h
        · rcases List.mem_append.mp h with h' | h'
          · have := mem_trace_cases c tr₁ (sanitize target) h1 h'
            tauto
          · simp at h'
            tauto
        · have := mem_trace_cases c tr₂ year h2 h
          tauto
      next s₃ tr₂ heq3 =>
        have h2 := prep_dir_cmds s₂ year
        rw [heq3] at h2
        replace h2 : tr₂ = [Cmd.list "."] ∨ tr₂ = [Cmd.list ".", Cmd.mkd year] := h2
        have hfin : c ∈ tr₁ ++ [Cmd.cwdTo (sanitize target)] ++ tr₂ ++ [Cmd.cwdTo year] := by
          split at hc
          · exact hc
          · exact hc
        rcases List.mem_append.mp hfin with h | h
        · rcases List.mem_append.mp h with h' | h'
          · rcases List.mem_append.mp h' with h'' | h''
            · have := mem_trace_cases c tr₁ (sanitize target) h1 h''
              tauto
            · simp at h''
              tauto
          · have := mem_trace_cases c tr₂ year h2 h'
            tauto
        · simp at h
          tauto

lemma cwd_warned (s : Server) (target year : String) :
    (cwd s target year).warned = decide (sanitize target ≠ target) := by
  unfold cwd
  repeat' split
  all_goals rfl

/-- Claim C4 counterexample: the regex `[^0-9a-zA-Z_]+` collapses a run
of offending characters into a single underscore, so `cwd` issues
`MKD a_b` for the input `"a!!b"`, not the `a__b` that per-character
replacement (one underscore for each offending character) would give. -/
theorem sanitize_not_charwise_counterexample :
    sanitize "a!!b" = "a_b" ∧ sanitizeCharwise "a!!b" = "a__b" ∧
    sanitize "a!!b" ≠ sanitizeCharwise "a!!b" ∧
    Cmd.mkd "a_b" ∈ (cwd ⟨[], [[]], []⟩ "a!!b" "2024").cmds ∧
    Cmd.mkd "a__b" ∉ (cwd ⟨[], [[]], []⟩ "a!!b" "2024").cmds := by decide

/-- Claim C4 (amended): `pFTP.cwd` sanitizes its argument by replacing
every maximal run of consecutive characters outside `[0-9A-Za-z_]` with a
single underscore (not one underscore per character); every CWD and MKD
command it issues names only the sanitized form or the year; the warning
is recorded exactly when sanitization altered the input; the output of
sanitization consists of class characters only, and an input made of
class characters is returned unchanged (the caller-visible argument is
never mutated since the sanitized name is a fresh value). -/
theorem cwd_uses_sanitized_names (s : Server) (target year : String) :
    (∀ n, Cmd.mkd n ∈ (cwd s target year).cmds → n = sanitize target ∨ n = year) ∧
    (∀ n, Cmd.cwdTo n ∈ (cwd s target year).cmds → n = sanitize target ∨ n = year) ∧
    ((cwd s target year).warned = true ↔ sanitize target ≠ target) ∧
    (∀ c ∈ (sanitize target).data, isWordChar c = true) ∧
    ((∀ c ∈ target.data, isWordChar c = true) → sanitize target = target) := by
  refine ⟨?_, ?_, ?_, sanitize_chars target, sanitize_of_wordChars target⟩
  · intro n hn
    rcases cwd_cmds_bound s target year _ hn with h | h | h | h | h
    · exact absurd h (by simp)
    · exact Or.inl (Cmd.mkd.inj h)
    · exact Or.inr (Cmd.mkd.inj h)
    · exact absurd h (by simp)
    · exact absurd h (by simp)
  · intro n hn
    rcases cwd_cmds_bound s target year _ hn with h | h | h | h | h
    · exact absurd h (by simp)
    · exact absurd h (by simp)
    · exact absurd h (by simp)
    · exact Or.inl (Cmd.cwdTo.inj h)
    · exact Or.inr (Cmd.cwdTo.inj h)
  · rw [cwd_warned]
    simp

/-- Witness for the amended claim C4: at target `"a b"` the input is
altered, and the theorem yields that the warning flag is set. -/
theorem cwd_uses_sanitized_names_witness :
    (cwd ⟨[], [[]], []⟩ "a b" "2025").warned = true :=
  ((cwd_uses_sanitized_names ⟨[], [[]], []⟩ "a b" "2025").2.2.1).mpr (by decide)

lemma get_contents_eq_filter (lines : List String) (h : ∀ l ∈ lines, l ≠ "") :
    get_contents lines = some
      ((lines.filter (fun l => l.data.head? == some 'd')).map entryName,
       (lines.filter (fun l => !(l.data.head? == some 'd'))).map entryName) := by
  induction lines with
  | nil => rfl
  | cons l ls ih =>
    have hl : l ≠ "" := h l (List.mem_cons_self l ls)
    have hls : ∀ x ∈ ls, x ≠ "" := fun x hx => h x (List.mem_cons_of_mem l hx)
    rcases hdata : l.data with _ | ⟨c, r⟩
    · exact absurd ((eq_empty_iff_data_nil l).mpr hdata) hl
    · rw [get_contents_cons l c r hdata, ih hls]
      by_cases hc : c = 'd'
      · subst hc
        simp [List.filter_cons, hdata]
      · simp [List.filter_cons, hdata, hc]

/-- Claim C5: `pFTP.get_contents` partitions raw lines into
(directories, files) by classifying a line as a directory exactly when
its first character is 'd', reconstructing each name from the 9th
whitespace-delimited token onwards; the spec's concrete example lines
parse to `(["sub"], ["file.txt"])`, and an empty listing yields two
empty sequences. -/
theorem get_contents_partition (lines : List String) (h : ∀ l ∈ lines, l ≠ "") :
    get_contents lines = some
      ((lines.filter (fun l => l.data.head? == some 'd')).map entryName,
       (lines.filter (fun l => !(l.data.head? == some 'd'))).map entryName) ∧
    get_contents ["drwxr-xr-x 2 u g 4096 Jan 1 00:00 sub",
      "-rw-r--r-- 1 u g 10 Jan 1 00:00 file.txt"] = some (["sub"], ["file.txt"]) ∧
    get_contents [] = some ([], []) :=
  ⟨get_contents_eq_filter lines h, by decide, rfl⟩

/-- Witness for claim C5 at the spec's own example lines. -/
theorem get_contents_partition_witness :
    get_contents ["drwxr-xr-x 2 u g 4096 Jan 1 00:00 sub",
        "-rw-r--r-- 1 u g 10 Jan 1 00:00 file.txt"] = some
      ((["drwxr-xr-x 2 u g 4096 Jan 1 00:00 sub",
          "-rw-r--r-- 1 u g 10 Jan 1 00:00 file.txt"].filter
            (fun l => l.data.head? == some 'd')).map entryName,
       (["drwxr-xr-x 2 u g 4096 Jan 1 00:00 sub",
          "-rw-r--r-- 1 u g 10 Jan 1 00:00 file.txt"].filter
            (fun l => !(l.data.head? == some 'd'))).map entryName) ∧
    get_contents ["drwxr-xr-x 2 u g 4096 Jan 1 00:00 sub",
      "-rw-r--r-- 1 u g 10 Jan 1 00:00 file.txt"] = some (["sub"], ["file.txt"]) ∧
    get_contents [] = some ([], []) :=
  get_contents_partition ["drwxr-xr-x 2 u g 4096 Jan 1 00:00 sub",
    "-rw-r--r-- 1 u g 10 Jan 1 00:00 file.txt"] (by decide)

/-- Claim C10: on any sequence of nonempty lines `pFTP.get_contents` is
total; a line with fewer than 9 whitespace-delimited tokens contributes
the empty string as an entry name; and a listing containing an empty
line makes the classification `line[0]` fail. -/
theorem get_contents_total_on_nonempty (lines : List String) (h : ∀ l ∈ lines, l ≠ "")
    (line : String) (hshort : (splitTokens line).length ≤ 8) :
    (get_contents lines).isSome = true ∧
    entryName line = "" ∧
    get_contents [""] = none := by
  refine ⟨?_, ?_, rfl⟩
  · rw [get_contents_eq_filter lines h]
    rfl
  · unfold entryName
    rw [List.drop_eq_nil_of_le hshort]
    rfl

/-- Witness for claim C10 on a two-token line. -/
theorem get_contents_total_on_nonempty_witness :
    (get_contents ["short line"]).isSome = true ∧
    entryName "short line" = "" ∧
    get_contents [""] = none :=
  get_contents_total_on_nonempty ["short line"] (by decide) "short line" (by decide)

/-- Claim C2: when the STOR transfer completes without reporting an
error (its raw completion response is `storResp s target`) but the fresh
post-upload listing does not contain the resolved remote filename under
case-insensitive comparison, `pFTP.upload_file` fails with
FTPUploadFailed carrying exactly that raw response string. -/
theorem upload_file_verification_failure (isfile : String → Bool)
    (storApply : Server → String → Server) (storResp : Server → String → String)
    (s : Server) (file : String) (overwrite : Bool) (tf : Option String)
    (hLocal : isfile file = true)
    (hPre : overwrite = false → file_exists s (resolveTarget file tf) = some false)
    (hPost : file_exists (storApply s (resolveTarget file tf)) (resolveTarget file tf)
      = some false) :
    (upload_file isfile storApply storResp s file overwrite tf).1
      = Except.error (PyExc.ftpUploadFailed (storResp s (resolveTarget file tf))) := by
  have hstor : (storStep storApply storResp s (resolveTarget file tf)).1
      = Except.error (PyExc.ftpUploadFailed (storResp s (resolveTarget file tf))) := by
    unfold storStep
    rw [hPost]
  unfold upload_file
  rw [hLocal, if_neg (by decide : ¬ (true = false))]
  cases overwrite with
  | false =>
    rw [if_pos rfl, hPre rfl]
    exact hstor
  | true =>
    rw [if_neg (by decide : ¬ (true = false))]
    exact hstor

/-- Witness for claim C2: the fake transfer is a no-op on the server, so
the post-upload listing is empty and the upload fails with the transfer
command's raw response. -/
theorem upload_file_verification_failure_witness :
    (upload_file (fun _ => true) (fun s _ => s) (fun _ _ => "226 Transfer complete")
      ⟨[], [[]], []⟩ "data.txt" true none).1
      = Except.error (PyExc.ftpUploadFailed "226 Transfer complete") :=
  upload_file_verification_failure (fun _ => true) (fun s _ => s)
    (fun _ _ => "226 Transfer complete") ⟨[], [[]], []⟩ "data.txt" true none
    rfl (by decide) (by decide)

/-- Claim C3: with `overwrite = false`, when the file-name sequence of a
fresh listing of the current remote directory contains a name equal to
the resolved remote filename after lowercasing (no other normalization),
`pFTP.upload_file` fails with FTPFileExistsOnServer and never issues a
STOR command. -/
theorem upload_file_rejects_existing (isfile : String → Bool)
    (storApply : Server → String → Server) (storResp : Server → String → String)
    (s : Server) (file : String) (tf : Option String) (ds fs : List String) (g : String)
    (hLocal : isfile file = true)
    (hL : get_contents (listLines s) = some (ds, fs))
    (hg : g ∈ fs)
    (hmatch : lowerStr (resolveTarget file tf) = lowerStr g) :
    (upload_file isfile storApply storResp s file false tf).1
      = Except.error PyExc.ftpFileExistsOnServer ∧
    ∀ n, Cmd.stor n ∉ (upload_file isfile storApply storResp s file false tf).2 := by
  have hfe : file_exists s (resolveTarget file tf) = some true := by
    unfold file_exists
    rw [hL]
    simp only [Option.some.injEq]
    rw [List.any_eq_true]
    exact ⟨g, hg, beq_iff_eq.mpr hmatch⟩
  have hres : upload_file isfile storApply storResp s file false tf
      = (Except.error PyExc.ftpFileExistsOnServer, [Cmd.list "."]) := by
    unfold upload_file
    rw [hLocal, if_neg (by decide : ¬ (true = false)), if_pos rfl, hfe]
  rw [hres]
  exact ⟨rfl, fun n => by simp⟩

/-- Witness for claim C3: remote directory holding `DATA.TXT`, local
upload of `data.txt`. -/
theorem upload_file_rejects_existing_witness :
    (upload_file (fun _ => true) (fun s _ => s) (fun _ _ => "226 ok")
      ⟨[], [[]], [["DATA.TXT"]]⟩ "data.txt" false none).1
      = Except.error PyExc.ftpFileExistsOnServer ∧
    ∀ n, Cmd.stor n ∉ (upload_file (fun _ => true) (fun s _ => s) (fun _ _ => "226 ok")
      ⟨[], [[]], [["DATA.TXT"]]⟩ "data.txt" false none).2 :=
  upload_file_rejects_existing (fun _ => true) (fun s _ => s) (fun _ _ => "226 ok")
    ⟨[], [[]], [["DATA.TXT"]]⟩ "data.txt" none [] ["DATA.TXT"] "DATA.TXT"
    rfl (by decide) (by decide) (by decide)

/-- Claim C6: when the local path is not an existing regular file,
`pFTP.upload_file` fails with the local-file error (raised as ValueError
in the source, the spec's LocalFileNotFoundError) before any network
activity: the command trace is empty and no new session state is
produced. -/
theorem upload_file_missing_local (isfile : String → Bool)
    (storApply : Server → String → Server) (storResp : Server → String → String)
    (s : Server) (file : String) (overwrite : Bool) (tf : Option String)
    (h : isfile file = false) :
    upload_file isfile storApply storResp s file overwrite tf
      = (Except.error PyExc.valueError, []) := by
  unfold upload_file
  rw [h, if_pos rfl]

/-- Witness for claim C6. -/
theorem upload_file_missing_local_witness :
    upload_file (fun _ => false) (fun s _ => s) (fun _ _ => "226 ok")
      ⟨[], [[]], []⟩ "missing.txt" true none = (Except.error PyExc.valueError, []) :=
  upload_file_missing_local (fun _ => false) (fun s _ => s) (fun _ _ => "226 ok")
    ⟨[], [[]], []⟩ "missing.txt" true none rfl

lemma storStep_facts (storApply : Server → String → Server)
    (storResp : Server → String → String) (s : Server) (target : String) :
    (∀ n, Cmd.cwdTo n ∉ (storStep storApply storResp s target).2) ∧
    (∀ n, Cmd.mkd n ∉ (storStep storApply storResp s target).2) ∧
    (∀ s', (storStep storApply storResp s target).1 = Except.ok s' →
      s' = storApply s target) := by
  unfold storStep
  cases hfe : file_exists (storApply s target) target with
  | none =>
    exact ⟨fun n => by simp, fun n => by simp, fun s' h => by cases h⟩
  | some b =>
    cases b with
    | false =>
      exact ⟨fun n => by simp, fun n => by simp, fun s' h => by cases h⟩
    | true =>
      exact ⟨fun n => by simp, fun n => by simp,
        fun s' h => (Except.ok.inj h).symm⟩

/-- Claim C9: `pFTP.upload_file` never issues a directory-change (or
directory-creation) command, and on every outcome the session's working
directory equals the one before the call (the STOR transfer itself
preserves the working directory, as the hypothesis states). -/
theorem upload_file_preserves_wd (isfile : String → Bool)
    (storApply : Server → String → Server) (storResp : Server → String → String)
    (s : Server) (file : String) (overwrite : Bool) (tf : Option String)
    (hStor : ∀ x n, (storApply x n).cwd = x.cwd) :
    (∀ n, Cmd.cwdTo n ∉ (upload_file isfile storApply storResp s file overwrite tf).2) ∧
    (∀ n, Cmd.mkd n ∉ (upload_file isfile storApply storResp s file overwrite tf).2) ∧
    (∀ s', (upload_file isfile storApply storResp s file overwrite tf).1 = Except.ok s' →
      s'.cwd = s.cwd) := by
  obtain ⟨hs1, hs2, hs3⟩ := storStep_facts storApply storResp s (resolveTarget file tf)
  unfold upload_file
  by_cases hif : isfile file = false
  · rw [if_pos hif]
    exact ⟨fun n => by simp, fun n => by simp, fun s' h => by cases h⟩
  · rw [if_neg hif]
    by_cases hov : overwrite = false
    · rw [if_pos hov]
      cases hfe : file_exists s (resolveTarget file tf) with
      | none =>
        exact ⟨fun n => by simp, fun n => by simp, fun s' h => by cases h⟩
      | some b =>
        cases b with
        | true =>
          exact ⟨fun n => by simp, fun n => by simp, fun s' h => by cases h⟩
        | false =>
          refine ⟨?_, ?_, ?_⟩
          · intro n hn
            rcases List.mem_cons.mp hn with h | h
            · cases h
            · exact hs1 n h
          · intro n hn
            rcases List.mem_cons.mp hn with h | h
            · cases h
            · exact hs2 n h
          · intro s' h
            rw [hs3 s' h, hStor]
    · rw [if_neg hov]
      refine ⟨hs1, hs2, ?_⟩
      intro s' h
      rw [hs3 s' h, hStor]

/-- Witness for claim C9: the fake transfer adds the uploaded file under
the current directory and keeps the working directory. -/
theorem upload_file_preserves_wd_witness :
    (∀ n, Cmd.cwdTo n ∉ (upload_file (fun _ => true)
      (fun x m => { x with files := (x.cwd ++ [m]) :: x.files }) (fun _ _ => "226 ok")
      ⟨[], [[]], []⟩ "data.txt" true none).2) ∧
    (∀ n, Cmd.mkd n ∉ (upload_file (fun _ => true)
      (fun x m => { x with files := (x.cwd ++ [m]) :: x.files }) (fun _ _ => "226 ok")
      ⟨[], [[]], []⟩ "data.txt" true none).2) ∧
    (∀ s', (upload_file (fun _ => true)
      (fun x m => { x with files := (x.cwd ++ [m]) :: x.files }) (fun _ _ => "226 ok")
      ⟨[], [[]], []⟩ "data.txt" true none).1 = Except.ok s' →
      s'.cwd = (⟨[], [[]], []⟩ : Server).cwd) :=
  upload_file_preserves_wd (fun _ => true)
    (fun x m => { x with files := (x.cwd ++ [m]) :: x.files }) (fun _ _ => "226 ok")
    ⟨[], [[]], []⟩ "data.txt" true none (fun _ _ => rfl)

/-- Claim C7: `pFTP.get_size` first forces binary mode (TYPE I) and then
issues SIZE; the result is always a normal return of the transport's
answer — the "unknown" sentinel `none` when the server does not report a
size (no exception), and the byte count otherwise. -/
theorem get_size_absent_ok (sizeResp : String → Option Nat) (file : String) :
    get_size sizeResp file = (Except.ok (sizeResp file), [Cmd.typeI, Cmd.sizeOf file]) := rfl

/-- Claim C8 counterexample: when `login` (run by `__enter__`) raises,
Python never enters the scope and `__exit__` is not called, so `quit` is
invoked zero times, not once. -/
theorem withSession_login_failure_counterexample :
    (withSession false (Except.ok (0 : Nat))).2 = 0 ∧
    (withSession false (Except.ok (0 : Nat))).2 ≠ 1 := by decide

/-- Claim C8 (amended): exiting the scope invokes `quit` exactly once
whenever the scope body was entered (login in `__enter__` succeeded),
including when the body raised; when login itself raises inside
`__enter__`, the with-statement never enters the body and `quit` is not
invoked at all. -/
theorem withSession_quit_exactly_once {α : Type} (body : Except PyExc α) :
    (withSession true body).2 = 1 ∧ (withSession false body).2 = 0 :=
  ⟨by cases body <;> rfl, rfl⟩
